import Mathlib

/-!
Verification of the appointment scheduling engine of the barbershop-bot
backend (`app/services/booking.py` together with the rows it reads from
`app/db/models.py`).  The engine's three operations — create, reschedule,
cancel — are embedded as pure functions over an explicit database state;
machine datetimes become a day index paired with a wall-clock second count,
mirroring exactly the comparisons the Python code performs.
-/

set_option maxHeartbeats 1000000

namespace Barbershop

/-- A timezone-aware instant as the engine compares it: `day` is a calendar
day index with day 0 a Monday (so `weekday = day % 7` matches Python's
`datetime.weekday()`, 0=Mon..6=Sun), and `tod` is the wall-clock time of day
in seconds. -/
structure DateTime where
  day : Nat
  tod : Nat
deriving DecidableEq, Repr

/-- Python strict `<` on datetimes: lexicographic on (day, time of day). -/
def dtLt (a b : DateTime) : Bool :=
  decide (a.day < b.day ∨ (a.day = b.day ∧ a.tod < b.tod))

/-- Python `≤` on datetimes. -/
def dtLe (a b : DateTime) : Bool :=
  decide (a.day < b.day ∨ (a.day = b.day ∧ a.tod ≤ b.tod))

/-- `start_at.weekday()`: 0=Monday .. 6=Sunday. -/
def weekday (a : DateTime) : Nat := a.day % 7

/-- `start_at.timetz().replace(tzinfo=None)`: the wall-clock time with the
date component stripped. -/
def timeOfDay (a : DateTime) : Nat := a.tod

/-- `app.db.models.AppointmentStatus`. -/
inductive AppointmentStatus where
  | booked
  | cancelled
deriving DecidableEq, Repr

/-- An `app.db.models.WorkingHours` row: an availability window of a master
on a weekday, wall-clock times in seconds. -/
structure WorkingHours where
  master_id : Nat
  day_of_week : Nat
  start_time : Nat
  end_time : Nat
deriving DecidableEq, Repr

/-- An `app.db.models.Appointment` row. -/
structure Appointment where
  id : Nat
  master_id : Nat
  customer_telegram_id : Nat
  start_at : DateTime
  end_at : DateTime
  status : AppointmentStatus
  created_at : DateTime
  cancelled_at : Option DateTime
deriving DecidableEq, Repr

/-- The four caller-facing error kinds: `invalidRange` is the `ValueError`
raised by `create_appointment`, the other three are the `BookingError`
subclasses `OutsideWorkingHours`, `MasterBusy`, `AppointmentNotFound` of
`app.services.booking`. -/
inductive BookingError where
  | invalidRange
  | outsideWorkingHours
  | masterBusy
  | appointmentNotFound
deriving DecidableEq, Repr

/-- The `app.services.booking.CreateAppointment` command dataclass. -/
structure CreateAppointment where
  master_id : Nat
  customer_telegram_id : Nat
  start_at : DateTime
  end_at : DateTime
deriving DecidableEq, Repr

/-- The database state the booking service reads and writes: the
`working_hours` table, the `appointments` table, and the next primary key
the session will assign on flush. -/
structure EngineState where
  hours : List WorkingHours
  appts : List Appointment
  nextId : Nat
deriving DecidableEq, Repr

/-- The `working_hours` rows selected for `(master_id, day_of_week)`. -/
def windowsFor (hours : List WorkingHours) (m dow : Nat) : List WorkingHours :=
  hours.filter (fun wh => decide (wh.master_id = m) && decide (wh.day_of_week = dow))

/-- `app.services.booking.assert_within_working_hours`: weekday of
`start_at`, fetch the rows, error when none, otherwise strip dates and
accept iff some single window contains the pair of wall-clock times. -/
def assert_within_working_hours (hours : List WorkingHours) (m : Nat)
    (start_at end_at : DateTime) : Except BookingError Unit :=
  let dow := weekday start_at
  let rows := windowsFor hours m dow
  if rows.isEmpty then Except.error BookingError.outsideWorkingHours
  else
    let start_t := timeOfDay start_at
    let end_t := timeOfDay end_at
    if rows.any (fun wh => decide (wh.start_time ≤ start_t) && decide (end_t ≤ wh.end_time)) then
      Except.ok ()
    else Except.error BookingError.outsideWorkingHours

/-- The row predicate of the conflict query in
`app.services.booking.assert_no_overlap`: same master, status booked,
`existing.start_at < end_at`, `start_at < existing.end_at`, and a different
id when `exclude_id` is supplied. -/
def conflictPred (m : Nat) (start_at end_at : DateTime) (exclude_id : Option Nat)
    (a : Appointment) : Bool :=
  decide (a.master_id = m) && decide (a.status = AppointmentStatus.booked) &&
    dtLt a.start_at end_at && dtLt start_at a.end_at &&
    (match exclude_id with
     | none => true
     | some i => decide (a.id ≠ i))

/-- `app.services.booking.assert_no_overlap`: `MasterBusy` iff the query
finds a first conflicting row. -/
def assert_no_overlap (appts : List Appointment) (m : Nat)
    (start_at end_at : DateTime) (exclude_id : Option Nat) : Except BookingError Unit :=
  match appts.find? (conflictPred m start_at end_at exclude_id) with
  | some _ => Except.error BookingError.masterBusy
  | none => Except.ok ()

/-- `session.get(Appointment, appointment_id)`: primary-key lookup. -/
def sessionGet (appts : List Appointment) (i : Nat) : Option Appointment :=
  appts.find? (fun a => decide (a.id = i))

/-- `app.services.booking.create_appointment`; operations return the state
after the call together with the result, so a state returned on an error
path exhibits exactly the writes performed before the raise (there are
none).  `now` stands for `datetime.utcnow()` filling the `created_at`
column default. -/
def create_appointment (s : EngineState) (cmd : CreateAppointment)
    (now : DateTime) : EngineState × Except BookingError Appointment :=
  if dtLe cmd.end_at cmd.start_at then (s, Except.error BookingError.invalidRange)
  else
    match assert_within_working_hours s.hours cmd.master_id cmd.start_at cmd.end_at with
    | Except.error e => (s, Except.error e)
    | Except.ok _ =>
      match assert_no_overlap s.appts cmd.master_id cmd.start_at cmd.end_at none with
      | Except.error e => (s, Except.error e)
      | Except.ok _ =>
        let appt : Appointment :=
          { id := s.nextId
            master_id := cmd.master_id
            customer_telegram_id := cmd.customer_telegram_id
            start_at := cmd.start_at
            end_at := cmd.end_at
            status := AppointmentStatus.booked
            created_at := now
            cancelled_at := none }
        ({ s with appts := s.appts ++ [appt], nextId := s.nextId + 1 }, Except.ok appt)

/-- `app.services.booking.reschedule_appointment`: load, not-found when
absent or not booked, re-check hours and conflicts excluding the own id,
then update `start_at`/`end_at` in place. -/
def reschedule_appointment (s : EngineState) (appointment_id : Nat)
    (start_at end_at : DateTime) : EngineState × Except BookingError Appointment :=
  match sessionGet s.appts appointment_id with
  | none => (s, Except.error BookingError.appointmentNotFound)
  | some appt =>
    if appt.status = AppointmentStatus.booked then
      match assert_within_working_hours s.hours appt.master_id start_at end_at with
      | Except.error e => (s, Except.error e)
      | Except.ok _ =>
        match assert_no_overlap s.appts appt.master_id start_at end_at (some appointment_id) with
        | Except.error e => (s, Except.error e)
        | Except.ok _ =>
          let appt2 : Appointment := { appt with start_at := start_at, end_at := end_at }
          ({ s with
              appts := s.appts.map (fun a => if a.id = appointment_id then appt2 else a) },
           Except.ok appt2)
    else (s, Except.error BookingError.appointmentNotFound)

/-- `app.services.booking.cancel_appointment`: load, not-found when absent
or not booked, then set status cancelled and stamp `cancelled_at` with the
current instant `now` (`datetime.utcnow()`). -/
def cancel_appointment (s : EngineState) (appointment_id : Nat)
    (now : DateTime) : EngineState × Except BookingError Appointment :=
  match sessionGet s.appts appointment_id with
  | none => (s, Except.error BookingError.appointmentNotFound)
  | some appt =>
    if appt.status = AppointmentStatus.booked then
      let appt2 : Appointment :=
        { appt with status := AppointmentStatus.cancelled, cancelled_at := some now }
      ({ s with
          appts := s.appts.map (fun a => if a.id = appointment_id then appt2 else a) },
       Except.ok appt2)
    else (s, Except.error BookingError.appointmentNotFound)

/-- One engine operation, as invoked sequentially by the request layer. -/
inductive Op where
  | createOp (cmd : CreateAppointment) (now : DateTime)
  | rescheduleOp (appointment_id : Nat) (start_at end_at : DateTime)
  | cancelOp (appointment_id : Nat) (now : DateTime)
deriving DecidableEq, Repr

/-- Dispatch one operation on the current state. -/
def applyOp (s : EngineState) : Op → EngineState × Except BookingError Appointment
  | Op.createOp cmd now => create_appointment s cmd now
  | Op.rescheduleOp i st en => reschedule_appointment s i st en
  | Op.cancelOp i now => cancel_appointment s i now

/-- Run a sequence of operations; a failed operation leaves the state it
returned (which the theorems below show is the unchanged input state). -/
def run (s : EngineState) : List Op → EngineState
  | [] => s
  | op :: rest => run (applyOp s op).1 rest

/-- The no-overlap invariant: no two distinct booked appointments of the
same provider have overlapping half-open ranges. -/
def NoOverlap (appts : List Appointment) : Prop :=
  ∀ a ∈ appts, ∀ b ∈ appts, a.id ≠ b.id → a.master_id = b.master_id →
    a.status = AppointmentStatus.booked → b.status = AppointmentStatus.booked →
    ¬ (dtLt a.start_at b.end_at = true ∧ dtLt b.start_at a.end_at = true)

/-- Primary keys are unique in the appointments table. -/
def UniqueIds (appts : List Appointment) : Prop :=
  appts.Pairwise (fun a b => a.id ≠ b.id)

/-- The pointwise effect a successful cancel of id `i` has on a stored row:
identity, customer, range and creation stamp survive; a row away from the
target id is untouched; the target row only changes status and
`cancelled_at`. -/
def cancelFrame (i : Nat) (now : DateTime) (b b2 : Appointment) : Prop :=
  b2.id = b.id ∧ b2.master_id = b.master_id ∧
  b2.customer_telegram_id = b.customer_telegram_id ∧
  b2.start_at = b.start_at ∧ b2.end_at = b.end_at ∧ b2.created_at = b.created_at ∧
  (b.id ≠ i → b2 = b) ∧
  (b.id = i → b2.status = AppointmentStatus.cancelled ∧ b2.cancelled_at = some now)

/-- The pointwise effect a successful reschedule of id `i` has on a stored
row: everything but the range survives; a row away from the target id is
untouched; the target row only changes `start_at` and `end_at`. -/
def rescheduleFrame (i : Nat) (st en : DateTime) (b b2 : Appointment) : Prop :=
  b2.id = b.id ∧ b2.master_id = b.master_id ∧
  b2.customer_telegram_id = b.customer_telegram_id ∧
  b2.status = b.status ∧ b2.created_at = b.created_at ∧
  b2.cancelled_at = b.cancelled_at ∧
  (b.id ≠ i → b2 = b) ∧
  (b.id = i → b2.start_at = st ∧ b2.end_at = en)

/-- The invariant is checkable on concrete states. -/
instance noOverlapDecidable (appts : List Appointment) : Decidable (NoOverlap appts) :=
  inferInstanceAs (Decidable (∀ a ∈ appts, ∀ b ∈ appts, a.id ≠ b.id →
    a.master_id = b.master_id → a.status = AppointmentStatus.booked →
    b.status = AppointmentStatus.booked →
    ¬ (dtLt a.start_at b.end_at = true ∧ dtLt b.start_at a.end_at = true)))

/-- Key uniqueness is checkable on concrete states. -/
instance uniqueIdsDecidable (appts : List Appointment) : Decidable (UniqueIds appts) :=
  inferInstanceAs (Decidable (appts.Pairwise (fun a b : Appointment => a.id ≠ b.id)))

/-- Operation results can be compared on concrete data. -/
instance exceptDecidableEq {ε α : Type} [DecidableEq ε] [DecidableEq α] :
    DecidableEq (Except ε α) := fun x y =>
  match x, y with
  | Except.error e, Except.error f =>
    if h : e = f then isTrue (by rw [h])
    else isFalse (fun hc => by cases hc; exact h rfl)
  | Except.error _, Except.ok _ => isFalse (fun hc => by cases hc)
  | Except.ok _, Except.error _ => isFalse (fun hc => by cases hc)
  | Except.ok a, Except.ok b =>
    if h : a = b then isTrue (by rw [h])
    else isFalse (fun hc => by cases hc; exact h rfl)

/-- A demonstration window: master 1, Monday 09:00-17:00. -/
def demoWindow : WorkingHours :=
  { master_id := 1, day_of_week := 0, start_time := 32400, end_time := 61200 }

/-- A demonstration appointment: id 1, master 1, Monday 10:00-10:30,
booked. -/
def demoAppt : Appointment :=
  { id := 1, master_id := 1, customer_telegram_id := 100,
    start_at := { day := 0, tod := 36000 }, end_at := { day := 0, tod := 37800 },
    status := AppointmentStatus.booked, created_at := { day := 0, tod := 0 },
    cancelled_at := none }

/-- A demonstration state holding the window and the appointment. -/
def demoState : EngineState :=
  { hours := [demoWindow], appts := [demoAppt], nextId := 2 }

/-- The demonstration appointment after a cancel stamped at second 1000. -/
def demoCancelledAppt : Appointment :=
  { demoAppt with
    status := AppointmentStatus.cancelled
    cancelled_at := some { day := 0, tod := 1000 } }

/-- The demonstration state after that cancel. -/
def demoCancelledState : EngineState :=
  { hours := [demoWindow], appts := [demoCancelledAppt], nextId := 2 }

/-- The conflict query predicate spelled out in propositional form. -/
theorem conflictPred_true_iff (m : Nat) (st en : DateTime) (ex : Option Nat)
    (a : Appointment) :
    conflictPred m st en ex a = true ↔
    (a.master_id = m ∧ a.status = AppointmentStatus.booked ∧
     dtLt a.start_at en = true ∧ dtLt st a.end_at = true ∧
     (ex = none ∨ ∃ i, ex = some i ∧ a.id ≠ i)) := by
  cases ex <;> simp [conflictPred, and_assoc]

/-- The conflict check raises `MasterBusy` exactly when a row matches. -/
theorem assert_no_overlap_error_iff (appts : List Appointment) (m : Nat)
    (st en : DateTime) (ex : Option Nat) :
    assert_no_overlap appts m st en ex = Except.error BookingError.masterBusy ↔
    ∃ a ∈ appts, conflictPred m st en ex a = true := by
  rw [show (∃ a ∈ appts, conflictPred m st en ex a = true) ↔
        (appts.find? (conflictPred m st en ex)).isSome by
      simp [List.find?_isSome]]
  unfold assert_no_overlap
  cases hf : appts.find? (conflictPred m st en ex) <;> simp [hf]

/-- The conflict check succeeds exactly when no row matches. -/
theorem assert_no_overlap_ok_iff (appts : List Appointment) (m : Nat)
    (st en : DateTime) (ex : Option Nat) :
    assert_no_overlap appts m st en ex = Except.ok () ↔
    ∀ a ∈ appts, conflictPred m st en ex a = false := by
  rw [show (∀ a ∈ appts, conflictPred m st en ex a = false) ↔
        appts.find? (conflictPred m st en ex) = none by
      rw [List.find?_eq_none]; simp]
  unfold assert_no_overlap
  cases hf : appts.find? (conflictPred m st en ex) <;> simp [hf]

/-- Specification form of a successful conflict check: every appointment of
the same master that is booked and not excluded does not overlap the
proposed range. -/
theorem assert_no_overlap_ok_spec (appts : List Appointment) (m : Nat)
    (st en : DateTime) (ex : Option Nat) (a : Appointment)
    (h : assert_no_overlap appts m st en ex = Except.ok ())
    (ha : a ∈ appts) (hm : a.master_id = m)
    (hs : a.status = AppointmentStatus.booked)
    (hex : ex = none ∨ ∃ i, ex = some i ∧ a.id ≠ i) :
    ¬ (dtLt a.start_at en = true ∧ dtLt st a.end_at = true) := by
  intro hov
  have := (assert_no_overlap_ok_iff appts m st en ex).mp h a ha
  rw [show (conflictPred m st en ex a = false) ↔ ¬ (conflictPred m st en ex a = true) by
        simp] at this
  exact this ((conflictPred_true_iff m st en ex a).mpr ⟨hm, hs, hov.1, hov.2, hex⟩)

/-- The availability check with zero configured windows for the weekday. -/
theorem assert_within_working_hours_empty (hours : List WorkingHours) (m : Nat)
    (start_at end_at : DateTime)
    (h : windowsFor hours m (weekday start_at) = []) :
    assert_within_working_hours hours m start_at end_at =
      Except.error BookingError.outsideWorkingHours := by
  simp [assert_within_working_hours, h]

/-- The availability check succeeds exactly when some single window for the
weekday of `start_at` contains both stripped wall-clock times. -/
theorem assert_within_working_hours_ok_iff (hours : List WorkingHours) (m : Nat)
    (start_at end_at : DateTime) :
    assert_within_working_hours hours m start_at end_at = Except.ok () ↔
    ∃ wh ∈ windowsFor hours m (weekday start_at),
      wh.start_time ≤ timeOfDay start_at ∧ timeOfDay end_at ≤ wh.end_time := by
  unfold assert_within_working_hours
  cases hw : (windowsFor hours m (weekday start_at)).any
      (fun wh => decide (wh.start_time ≤ timeOfDay start_at) &&
        decide (timeOfDay end_at ≤ wh.end_time)) with
  | false =>
    have hno : ¬ ∃ wh ∈ windowsFor hours m (weekday start_at),
        wh.start_time ≤ timeOfDay start_at ∧ timeOfDay end_at ≤ wh.end_time := by
      rw [List.any_eq_false] at hw
      rintro ⟨wh, hwh, h1, h2⟩
      exact hw wh hwh (by simp [h1, h2])
    by_cases he : (windowsFor hours m (weekday start_at)).isEmpty <;>
      simp [he, hw, hno]
  | true =>
    have hex : ∃ wh ∈ windowsFor hours m (weekday start_at),
        wh.start_time ≤ timeOfDay start_at ∧ timeOfDay end_at ≤ wh.end_time := by
      rcases List.any_eq_true.mp hw with ⟨wh, hwh, hp⟩
      simp only [Bool.and_eq_true, decide_eq_true_eq] at hp
      exact ⟨wh, hwh, hp⟩
    have hne : (windowsFor hours m (weekday start_at)).isEmpty = false := by
      rcases hex with ⟨wh, hwh, _⟩
      cases hrows : windowsFor hours m (weekday start_at) with
      | nil => rw [hrows] at hwh; cases hwh
      | cons x xs => rfl
    simp [hne, hw, hex]

/-- Appending an appointment that overlaps no booked appointment of its
master preserves the no-overlap invariant. -/
theorem no_overlap_insert (appts : List Appointment) (newA : Appointment)
    (h : NoOverlap appts)
    (hchk : ∀ a ∈ appts, a.master_id = newA.master_id →
      a.status = AppointmentStatus.booked →
      ¬ (dtLt a.start_at newA.end_at = true ∧ dtLt newA.start_at a.end_at = true)) :
    NoOverlap (appts ++ [newA]) := by
  intro a ha b hb hid hm hsa hsb
  rcases List.mem_append.mp ha with ha2 | ha2
  · rcases List.mem_append.mp hb with hb2 | hb2
    · exact h a ha2 b hb2 hid hm hsa hsb
    · have hb3 : b = newA := by simpa using hb2
      rw [hb3] at hm ⊢
      exact hchk a ha2 hm hsa
  · have ha3 : a = newA := by simpa using ha2
    rcases List.mem_append.mp hb with hb2 | hb2
    · rw [ha3] at hm ⊢
      intro hov
      exact hchk b hb2 hm.symm hsb ⟨hov.2, hov.1⟩
    · have hb3 : b = newA := by simpa using hb2
      rw [ha3, hb3] at hid
      exact absurd rfl hid

/-- Replacing the appointment with id `i` by a record whose new range
overlaps no other booked appointment of its master preserves the
no-overlap invariant. -/
theorem no_overlap_update (appts : List Appointment) (i : Nat) (appt2 : Appointment)
    (h : NoOverlap appts)
    (hchk : ∀ a ∈ appts, a.id ≠ i → a.master_id = appt2.master_id →
      a.status = AppointmentStatus.booked →
      ¬ (dtLt a.start_at appt2.end_at = true ∧ dtLt appt2.start_at a.end_at = true)) :
    NoOverlap (appts.map (fun a => if a.id = i then appt2 else a)) := by
  intro a ha b hb hid hm hsa hsb
  rcases List.mem_map.mp ha with ⟨c, hc, hgc⟩
  rcases List.mem_map.mp hb with ⟨d, hd, hgd⟩
  by_cases hci : c.id = i
  · rw [if_pos hci] at hgc
    by_cases hdi : d.id = i
    · rw [if_pos hdi] at hgd
      rw [← hgc, ← hgd] at hid
      exact absurd rfl hid
    · rw [if_neg hdi] at hgd
      rw [← hgc] at hm ⊢
      rw [← hgd] at hm hsb ⊢
      intro hov
      exact hchk d hd hdi hm.symm hsb ⟨hov.2, hov.1⟩
  · rw [if_neg hci] at hgc
    by_cases hdi : d.id = i
    · rw [if_pos hdi] at hgd
      rw [← hgc] at hm hsa ⊢
      rw [← hgd] at hm ⊢
      exact hchk c hc hci hm hsa
    · rw [if_neg hdi] at hgd
      rw [← hgc] at hid hm hsa ⊢
      rw [← hgd] at hid hm hsb ⊢
      exact h c hc d hd hid hm hsa hsb

/-- Replacing the appointment with id `i` by a record that is no longer
booked preserves the no-overlap invariant. -/
theorem no_overlap_cancel_update (appts : List Appointment) (i : Nat)
    (appt2 : Appointment) (h : NoOverlap appts)
    (hst : appt2.status ≠ AppointmentStatus.booked) :
    NoOverlap (appts.map (fun a => if a.id = i then appt2 else a)) := by
  intro a ha b hb hid hm hsa hsb
  rcases List.mem_map.mp ha with ⟨c, hc, hgc⟩
  rcases List.mem_map.mp hb with ⟨d, hd, hgd⟩
  by_cases hci : c.id = i
  · rw [if_pos hci] at hgc
    rw [← hgc] at hsa
    exact absurd hsa hst
  · rw [if_neg hci] at hgc
    by_cases hdi : d.id = i
    · rw [if_pos hdi] at hgd
      rw [← hgd] at hsb
      exact absurd hsb hst
    · rw [if_neg hdi] at hgd
      rw [← hgc] at hid hm hsa ⊢
      rw [← hgd] at hid hm hsb ⊢
      exact h c hc d hd hid hm hsa hsb

/-- A create call, successful or failed, preserves the no-overlap
invariant. -/
theorem create_preserves_no_overlap (s : EngineState) (cmd : CreateAppointment)
    (now : DateTime) (h : NoOverlap s.appts) :
    NoOverlap (create_appointment s cmd now).1.appts := by
  unfold create_appointment
  cases hg : dtLe cmd.end_at cmd.start_at with
  | true => simpa using h
  | false =>
    cases hw : assert_within_working_hours s.hours cmd.master_id cmd.start_at cmd.end_at with
    | error e => simpa using h
    | ok u =>
      cases hc : assert_no_overlap s.appts cmd.master_id cmd.start_at cmd.end_at none with
      | error e => simpa using h
      | ok u =>
        simp only [Bool.false_eq_true, if_false]
        refine no_overlap_insert s.appts _ h ?_
        intro a ha hm hs
        exact assert_no_overlap_ok_spec s.appts cmd.master_id cmd.start_at cmd.end_at
          none a hc ha hm hs (Or.inl rfl)

/-- A reschedule call, successful or failed, preserves the no-overlap
invariant. -/
theorem reschedule_preserves_no_overlap (s : EngineState) (i : Nat)
    (st en : DateTime) (h : NoOverlap s.appts) :
    NoOverlap (reschedule_appointment s i st en).1.appts := by
  unfold reschedule_appointment
  cases hget : sessionGet s.appts i with
  | none => simpa using h
  | some appt =>
    dsimp only
    by_cases hb : appt.status = AppointmentStatus.booked
    · rw [if_pos hb]
      cases hw : assert_within_working_hours s.hours appt.master_id st en with
      | error e => simpa using h
      | ok u =>
        cases hc : assert_no_overlap s.appts appt.master_id st en (some i) with
        | error e => simpa using h
        | ok u =>
          refine no_overlap_update s.appts i _ h ?_
          intro a ha hai hm hs
          exact assert_no_overlap_ok_spec s.appts appt.master_id st en (some i) a hc ha
            hm hs (Or.inr ⟨i, rfl, hai⟩)
    · rw [if_neg hb]
      simpa using h

/-- A cancel call, successful or failed, preserves the no-overlap
invariant. -/
theorem cancel_preserves_no_overlap (s : EngineState) (i : Nat)
    (now : DateTime) (h : NoOverlap s.appts) :
    NoOverlap (cancel_appointment s i now).1.appts := by
  unfold cancel_appointment
  cases hget : sessionGet s.appts i with
  | none => simpa using h
  | some appt =>
    dsimp only
    by_cases hb : appt.status = AppointmentStatus.booked
    · rw [if_pos hb]
      refine no_overlap_cancel_update s.appts i _ h ?_
      intro hc
      cases hc
    · rw [if_neg hb]
      simpa using h

/-- Each dispatched operation preserves the no-overlap invariant. -/
theorem applyOp_preserves_no_overlap (s : EngineState) (op : Op)
    (h : NoOverlap s.appts) : NoOverlap (applyOp s op).1.appts := by
  cases op with
  | createOp cmd now => exact create_preserves_no_overlap s cmd now h
  | rescheduleOp i st en => exact reschedule_preserves_no_overlap s i st en h
  | cancelOp i now => exact cancel_preserves_no_overlap s i now h

/-- Claim C1: for every provider, after any sequence of create, reschedule
and cancel operations executed sequentially from a state satisfying the
no-overlap invariant, no two distinct booked appointments of the same
provider have overlapping half-open ranges. -/
theorem no_overlap_invariant_holds_after_runs (s : EngineState) (ops : List Op)
    (h : NoOverlap s.appts) : NoOverlap (run s ops).appts := by
  induction ops generalizing s with
  | nil => exact h
  | cons op rest ih => exact ih (applyOp s op).1 (applyOp_preserves_no_overlap s op h)

/-- Claim C2: the conflict check for create and reschedule reports a
conflict (raises `MasterBusy`) if and only if some appointment of the same
provider with status booked — and, when an exclude id is supplied, with a
different id — satisfies `existing.start_at < new.end_at` and
`new.start_at < existing.end_at`; touching endpoints do not match the
strict inequalities, and cancelled appointments never match. -/
theorem conflict_detector_characterization (appts : List Appointment) (m : Nat)
    (st en : DateTime) (ex : Option Nat) :
    assert_no_overlap appts m st en ex = Except.error BookingError.masterBusy ↔
    ∃ a ∈ appts, a.master_id = m ∧ a.status = AppointmentStatus.booked ∧
      dtLt a.start_at en = true ∧ dtLt st a.end_at = true ∧
      (ex = none ∨ ∃ i, ex = some i ∧ a.id ≠ i) := by
  rw [assert_no_overlap_error_iff]
  constructor
  · rintro ⟨a, ha, hp⟩
    exact ⟨a, ha, (conflictPred_true_iff m st en ex a).mp hp⟩
  · rintro ⟨a, ha, hp⟩
    exact ⟨a, ha, (conflictPred_true_iff m st en ex a).mpr hp⟩

/-- Claim C3: the availability check fails with `OutsideWorkingHours` when
the provider has zero windows for the weekday of `start_at`, and otherwise
succeeds if and only if some single configured window for that provider and
weekday satisfies `window.start_time ≤ start_t` and `end_t ≤ window.end_time`,
where `start_t` and `end_t` are the wall-clock times of `start_at` and
`end_at` with the date component stripped. -/
theorem availability_validator_characterization (hours : List WorkingHours)
    (m : Nat) (start_at end_at : DateTime) :
    (windowsFor hours m (weekday start_at) = [] →
      assert_within_working_hours hours m start_at end_at =
        Except.error BookingError.outsideWorkingHours) ∧
    (assert_within_working_hours hours m start_at end_at = Except.ok () ↔
      ∃ wh ∈ windowsFor hours m (weekday start_at),
        wh.start_time ≤ timeOfDay start_at ∧ timeOfDay end_at ≤ wh.end_time) :=
  ⟨fun h => assert_within_working_hours_empty hours m start_at end_at h,
   assert_within_working_hours_ok_iff hours m start_at end_at⟩

/-- Claim C6: create with `end_at ≤ start_at` fails with the `InvalidRange`
error kind before the availability and conflict checks run, and persists
nothing — the result is the error paired with the untouched input state,
whatever that state holds. -/
theorem create_invalid_range_guard (s : EngineState) (cmd : CreateAppointment)
    (now : DateTime) (h : dtLe cmd.end_at cmd.start_at = true) :
    create_appointment s cmd now = (s, Except.error BookingError.invalidRange) := by
  unfold create_appointment
  rw [if_pos h]

/-- Claim C9: every operation is atomic with respect to its own writes —
whenever create, reschedule or cancel fails with a typed error, the
appointment store is exactly as it was before the call. -/
theorem failed_op_leaves_state_unchanged (s : EngineState) (op : Op)
    (e : BookingError) (h : (applyOp s op).2 = Except.error e) :
    (applyOp s op).1 = s := by
  cases op with
  | createOp cmd now =>
    unfold applyOp create_appointment at h ⊢
    dsimp only at h ⊢
    cases hg : dtLe cmd.end_at cmd.start_at with
    | true => simp [hg]
    | false =>
      rw [hg] at h
      simp only [Bool.false_eq_true, if_false] at h ⊢
      cases hw : assert_within_working_hours s.hours cmd.master_id cmd.start_at cmd.end_at with
      | error e2 => simp [hw]
      | ok u =>
        rw [hw] at h
        cases hc : assert_no_overlap s.appts cmd.master_id cmd.start_at cmd.end_at none with
        | error e2 => simp [hc]
        | ok u2 =>
          rw [hc] at h
          simp at h
  | rescheduleOp i st en =>
    unfold applyOp reschedule_appointment at h ⊢
    dsimp only at h ⊢
    cases hget : sessionGet s.appts i with
    | none => simp [hget]
    | some appt =>
      rw [hget] at h
      dsimp only at h ⊢
      by_cases hb : appt.status = AppointmentStatus.booked
      · rw [if_pos hb] at h ⊢
        cases hw : assert_within_working_hours s.hours appt.master_id st en with
        | error e2 => simp [hw]
        | ok u =>
          rw [hw] at h
          cases hc : assert_no_overlap s.appts appt.master_id st en (some i) with
          | error e2 => simp [hc]
          | ok u2 =>
            rw [hc] at h
            simp at h
      · rw [if_neg hb]
  | cancelOp i now =>
    unfold applyOp cancel_appointment at h ⊢
    dsimp only at h ⊢
    cases hget : sessionGet s.appts i with
    | none => simp [hget]
    | some appt =>
      rw [hget] at h
      dsimp only at h ⊢
      by_cases hb : appt.status = AppointmentStatus.booked
      · rw [if_pos hb] at h
        simp at h
      · rw [if_neg hb]

/-- Searching a list rewritten by a pointwise replacement that does not
disturb the search predicate finds the replacement of the original hit. -/
theorem find_in_mapped (l : List Appointment) (g : Appointment → Appointment)
    (p : Appointment → Bool) (hp : ∀ c, p (g c) = p c) :
    (l.map g).find? p = (l.find? p).map g := by
  induction l with
  | nil => rfl
  | cons c cs ih =>
    cases hpc : p c with
    | true =>
      rw [List.map_cons, List.find?_cons_of_pos _ (by rw [hp c]; exact hpc),
        List.find?_cons_of_pos _ hpc]
      rfl
    | false =>
      rw [List.map_cons, List.find?_cons_of_neg _ (by rw [hp c, hpc]; exact Bool.false_ne_true),
        List.find?_cons_of_neg _ (by rw [hpc]; exact Bool.false_ne_true), ih]

/-- A successful cancel rewrites the store by replacing every row carrying
the cancelled id with the cancelled copy of the loaded row. -/
theorem cancel_success_shape (s : EngineState) (i : Nat) (now : DateTime)
    (s2 : EngineState) (r : Appointment)
    (h : cancel_appointment s i now = (s2, Except.ok r)) :
    ∃ appt, sessionGet s.appts i = some appt ∧
      appt.status = AppointmentStatus.booked ∧ appt.id = i ∧
      r = { appt with status := AppointmentStatus.cancelled, cancelled_at := some now } ∧
      s2 = { s with appts := s.appts.map (fun a => if a.id = i then
        { appt with status := AppointmentStatus.cancelled, cancelled_at := some now }
        else a) } := by
  unfold cancel_appointment at h
  cases hget : sessionGet s.appts i with
  | none => rw [hget] at h; simp at h
  | some appt =>
    rw [hget] at h
    dsimp only at h
    by_cases hb : appt.status = AppointmentStatus.booked
    · rw [if_pos hb] at h
      simp only [Prod.mk.injEq, Except.ok.injEq] at h
      refine ⟨appt, rfl, hb, ?_, h.2.symm, h.1.symm⟩
      have := List.find?_some hget
      simpa using this
    · rw [if_neg hb] at h
      simp at h

/-- A successful reschedule rewrites the store by replacing every row
carrying the id with the loaded row updated to the new range. -/
theorem reschedule_success_shape (s : EngineState) (i : Nat) (st en : DateTime)
    (s2 : EngineState) (r : Appointment)
    (h : reschedule_appointment s i st en = (s2, Except.ok r)) :
    ∃ appt, sessionGet s.appts i = some appt ∧
      appt.status = AppointmentStatus.booked ∧ appt.id = i ∧
      r = { appt with start_at := st, end_at := en } ∧
      s2 = { s with appts := s.appts.map (fun a => if a.id = i then
        { appt with start_at := st, end_at := en } else a) } := by
  unfold reschedule_appointment at h
  cases hget : sessionGet s.appts i with
  | none => rw [hget] at h; simp at h
  | some appt =>
    rw [hget] at h
    dsimp only at h
    by_cases hb : appt.status = AppointmentStatus.booked
    · rw [if_pos hb] at h
      cases hw : assert_within_working_hours s.hours appt.master_id st en with
      | error e2 => rw [hw] at h; simp at h
      | ok u =>
        rw [hw] at h
        cases hc : assert_no_overlap s.appts appt.master_id st en (some i) with
        | error e2 => rw [hc] at h; simp at h
        | ok u2 =>
          rw [hc] at h
          simp only [Prod.mk.injEq, Except.ok.injEq] at h
          refine ⟨appt, rfl, hb, ?_, h.2.symm, h.1.symm⟩
          have := List.find?_some hget
          simpa using this
    · rw [if_neg hb] at h
      simp at h

/-- Claim C7: cancel fails with `AppointmentNotFound` exactly when the id is
absent from the store or the loaded appointment is not booked; a second
cancel right after a successful one therefore fails with
`AppointmentNotFound` rather than silently succeeding, and rescheduling a
cancelled id fails the same way. -/
theorem not_found_semantics :
    (∀ s : EngineState, ∀ i : Nat, ∀ now : DateTime,
      (cancel_appointment s i now).2 = Except.error BookingError.appointmentNotFound ↔
      (sessionGet s.appts i = none ∨
        ∃ a, sessionGet s.appts i = some a ∧ a.status ≠ AppointmentStatus.booked)) ∧
    (∀ s : EngineState, ∀ i : Nat, ∀ now : DateTime, ∀ s2 : EngineState,
      ∀ r : Appointment, ∀ now2 : DateTime,
      cancel_appointment s i now = (s2, Except.ok r) →
      (cancel_appointment s2 i now2).2 = Except.error BookingError.appointmentNotFound) ∧
    (∀ s : EngineState, ∀ i : Nat, ∀ st en : DateTime, ∀ a : Appointment,
      sessionGet s.appts i = some a → a.status = AppointmentStatus.cancelled →
      (reschedule_appointment s i st en).2 = Except.error BookingError.appointmentNotFound) := by
  refine ⟨?_, ?_, ?_⟩
  · intro s i now
    unfold cancel_appointment
    cases hget : sessionGet s.appts i with
    | none => simp
    | some appt =>
      dsimp only
      by_cases hb : appt.status = AppointmentStatus.booked
      · rw [if_pos hb]
        simp only [reduceCtorEq, false_iff, not_or, not_exists, not_and]
        refine ⟨by simp, ?_⟩
        intro b hbeq
        rw [Option.some.injEq] at hbeq
        rw [← hbeq]
        simp [hb]
      · rw [if_neg hb]
        simp only [true_iff]
        exact Or.inr ⟨appt, rfl, hb⟩
  · intro s i now s2 r now2 h
    rcases cancel_success_shape s i now s2 r h with ⟨appt, hget, hb, hid, hr, hs2⟩
    have hfind : sessionGet s2.appts i =
        some { appt with status := AppointmentStatus.cancelled, cancelled_at := some now } := by
      rw [hs2]
      show (s.appts.map _).find? _ = _
      rw [find_in_mapped _ _ _ ?hp]
      case hp =>
        intro c
        by_cases hci : c.id = i
        · rw [if_pos hci]
          simp [hci, hid]
        · rw [if_neg hci]
      rw [show s.appts.find? (fun a => decide (a.id = i)) = some appt from hget]
      dsimp only [Option.map]
      rw [if_pos hid]
    unfold cancel_appointment
    rw [hfind]
    dsimp only
    rw [if_neg (by simp)]
  · intro s i st en a hget hcan
    unfold reschedule_appointment
    rw [hget]
    dsimp only
    rw [if_neg (by rw [hcan]; simp)]

/-- Claim C8: rescheduling a booked appointment excludes its own id from
conflict detection — whenever the new range is within working hours and
every other booked appointment of the provider is disjoint from it (so the
new range may freely overlap the appointment's own current range), the
reschedule succeeds, never failing with `MasterBusy` against itself, and
the returned appointment differs from the loaded one only in its range,
keeping status booked. -/
theorem reschedule_self_exclusion (s : EngineState) (i : Nat) (st en : DateTime)
    (appt : Appointment)
    (hget : sessionGet s.appts i = some appt)
    (hbooked : appt.status = AppointmentStatus.booked)
    (hwh : assert_within_working_hours s.hours appt.master_id st en = Except.ok ())
    (hothers : ∀ a ∈ s.appts, a.id ≠ i → a.master_id = appt.master_id →
      a.status = AppointmentStatus.booked →
      ¬ (dtLt a.start_at en = true ∧ dtLt st a.end_at = true)) :
    (reschedule_appointment s i st en).2 =
      Except.ok { appt with start_at := st, end_at := en } := by
  have hno : assert_no_overlap s.appts appt.master_id st en (some i) = Except.ok () := by
    rw [assert_no_overlap_ok_iff]
    intro a ha
    rw [← Bool.not_eq_true]
    intro hp
    rcases (conflictPred_true_iff appt.master_id st en (some i) a).mp hp with
      ⟨hm, hs, h1, h2, hex⟩
    rcases hex with hex | ⟨j, hj, hij⟩
    · cases hex
    · rw [Option.some.injEq] at hj
      rw [← hj] at hij
      exact hothers a ha hij hm hs ⟨h1, h2⟩
  unfold reschedule_appointment
  rw [hget]
  dsimp only
  rw [if_pos hbooked, hwh]
  dsimp only
  rw [hno]

/-- A pointwise relation between a list and its image under a map. -/
theorem forall2_map_self {α β : Type} (r : α → β → Prop) (g : α → β)
    (l : List α) (h : ∀ a ∈ l, r a (g a)) : List.Forall₂ r l (l.map g) := by
  induction l with
  | nil => exact List.Forall₂.nil
  | cons c cs ih =>
    exact List.Forall₂.cons (h c (List.mem_cons_self c cs))
      (ih fun a ha => h a (List.mem_cons_of_mem c ha))

/-- With unique primary keys, a member carrying the searched id is the
record the primary-key lookup returns. -/
theorem find_unique_mem (l : List Appointment) (i : Nat) (a b : Appointment)
    (hu : UniqueIds l)
    (hf : l.find? (fun x => decide (x.id = i)) = some a)
    (hb : b ∈ l) (hbi : b.id = i) : b = a := by
  have haMem : a ∈ l := List.mem_of_find?_eq_some hf
  have hai : a.id = i := by simpa using List.find?_some hf
  by_contra hne
  have hsym : Symmetric (fun x y : Appointment => x.id ≠ y.id) :=
    fun x y hxy => hxy.symm
  exact (List.Pairwise.forall hsym hu hb haMem hne) (hbi.trans hai.symm)

/-- Claim C10: each successful operation modifies only its declared fields
of the target appointment and touches no other appointment — a successful
cancel keeps id, master, customer, range and creation stamp, changing only
status and `cancelled_at`; a successful reschedule keeps id, master,
customer, status, creation stamp and `cancelled_at`, changing only the
range; the working-hours table and the id counter never move. -/
theorem operations_frame_conditions (s : EngineState) (i : Nat) :
    (∀ now : DateTime, ∀ s2 : EngineState, ∀ r : Appointment,
      UniqueIds s.appts →
      cancel_appointment s i now = (s2, Except.ok r) →
      s2.hours = s.hours ∧ s2.nextId = s.nextId ∧
        List.Forall₂ (cancelFrame i now) s.appts s2.appts) ∧
    (∀ st en : DateTime, ∀ s2 : EngineState, ∀ r : Appointment,
      UniqueIds s.appts →
      reschedule_appointment s i st en = (s2, Except.ok r) →
      s2.hours = s.hours ∧ s2.nextId = s.nextId ∧
        List.Forall₂ (rescheduleFrame i st en) s.appts s2.appts) := by
  constructor
  · intro now s2 r hu h
    rcases cancel_success_shape s i now s2 r h with ⟨appt, hget, hb, hid, hr, hs2⟩
    rw [hs2]
    refine ⟨rfl, rfl, ?_⟩
    refine forall2_map_self _ _ _ ?_
    intro b hbm
    by_cases hbi : b.id = i
    · rw [if_pos hbi]
      have hba : b = appt := find_unique_mem s.appts i appt b hu hget hbm hbi
      rw [hba]
      exact ⟨rfl, rfl, rfl, rfl, rfl, rfl, fun hc => absurd (hba ▸ hbi) hc,
        fun _ => ⟨rfl, rfl⟩⟩
    · rw [if_neg hbi]
      exact ⟨rfl, rfl, rfl, rfl, rfl, rfl, fun _ => rfl, fun hc => absurd hc hbi⟩
  · intro st en s2 r hu h
    rcases reschedule_success_shape s i st en s2 r h with ⟨appt, hget, hb, hid, hr, hs2⟩
    rw [hs2]
    refine ⟨rfl, rfl, ?_⟩
    refine forall2_map_self _ _ _ ?_
    intro b hbm
    by_cases hbi : b.id = i
    · rw [if_pos hbi]
      have hba : b = appt := find_unique_mem s.appts i appt b hu hget hbm hbi
      rw [hba]
      exact ⟨rfl, rfl, rfl, rfl, rfl, rfl, fun hc => absurd (hba ▸ hbi) hc,
        fun _ => ⟨rfl, rfl⟩⟩
    · rw [if_neg hbi]
      exact ⟨rfl, rfl, rfl, rfl, rfl, rfl, fun _ => rfl, fun hc => absurd hc hbi⟩

/-- Claim C4, evaluated at the failing input: rescheduling the booked
demonstration appointment to new_start 12:00 and new_end 10:00 of the same
day — a range with new_end ≤ new_start — succeeds and persists the
inverted range, so the `start_at < end_at` precondition is not enforced at
reschedule (only create has the guard). -/
theorem reschedule_accepts_inverted_range :
    dtLe { day := 0, tod := 36000 } { day := 0, tod := 43200 } = true ∧
    reschedule_appointment demoState 1 { day := 0, tod := 43200 }
        { day := 0, tod := 36000 } =
      ({ hours := [demoWindow],
         appts := [{ demoAppt with
                     start_at := { day := 0, tod := 43200 }
                     end_at := { day := 0, tod := 36000 } }],
         nextId := 2 },
       Except.ok { demoAppt with
                   start_at := { day := 0, tod := 43200 }
                   end_at := { day := 0, tod := 36000 } }) := by
  decide

/-- Claim C5 counterexample: with a Monday window 00:00-23:59 configured,
creating an appointment from Monday 23:00 to Tuesday 01:00 — a range that
crosses midnight — succeeds instead of failing with `OutsideWorkingHours`,
because the availability check strips the date from `end_at` and the
wrapped wall-clock 01:00 fits inside the wide window. -/
theorem midnight_crossing_accepted :
    (create_appointment
      { hours := [{ master_id := 1, day_of_week := 0, start_time := 0, end_time := 86340 }]
        appts := []
        nextId := 1 }
      { master_id := 1
        customer_telegram_id := 100
        start_at := { day := 0, tod := 82800 }
        end_at := { day := 1, tod := 3600 } }
      { day := 0, tod := 0 }).2 =
    Except.ok { id := 1
                master_id := 1
                customer_telegram_id := 100
                start_at := { day := 0, tod := 82800 }
                end_at := { day := 1, tod := 3600 }
                status := AppointmentStatus.booked
                created_at := { day := 0, tod := 0 }
                cancelled_at := none } := by
  decide

/-- Claim C5 (amended): the availability check ignores the date component
of `end_at` entirely, so a midnight-crossing appointment is not
categorically rejected — it is accepted exactly when some window for the
weekday of `start_at` contains the (wrapped) wall-clock pair, which a
sufficiently wide window does. -/
theorem midnight_crossing_characterization (hours : List WorkingHours) (m : Nat)
    (start_at end_at : DateTime) (_hcross : start_at.day < end_at.day) :
    (assert_within_working_hours hours m start_at end_at =
      assert_within_working_hours hours m start_at
        { day := start_at.day, tod := end_at.tod }) ∧
    (assert_within_working_hours hours m start_at end_at = Except.ok () ↔
      ∃ wh ∈ windowsFor hours m (weekday start_at),
        wh.start_time ≤ timeOfDay start_at ∧ timeOfDay end_at ≤ wh.end_time) :=
  ⟨rfl, assert_within_working_hours_ok_iff hours m start_at end_at⟩

/-- Witness for C1 at a concrete run of create, reschedule and cancel. -/
theorem no_overlap_invariant_holds_after_runs_witness :
    NoOverlap demoState.appts ∧
    NoOverlap (run demoState
      [Op.createOp { master_id := 1
                     customer_telegram_id := 101
                     start_at := { day := 0, tod := 37800 }
                     end_at := { day := 0, tod := 39600 } }
          { day := 0, tod := 0 },
       Op.rescheduleOp 1 { day := 0, tod := 39600 } { day := 0, tod := 41400 },
       Op.cancelOp 2 { day := 0, tod := 500 }]).appts :=
  ⟨by decide, no_overlap_invariant_holds_after_runs demoState _ (by decide)⟩

/-- Witness for C2 at concrete arguments. -/
theorem conflict_detector_characterization_witness :
    assert_no_overlap demoState.appts 1 { day := 0, tod := 36900 }
        { day := 0, tod := 38700 } none =
      Except.error BookingError.masterBusy ↔
    ∃ a ∈ demoState.appts, a.master_id = 1 ∧ a.status = AppointmentStatus.booked ∧
      dtLt a.start_at { day := 0, tod := 38700 } = true ∧
      dtLt { day := 0, tod := 36900 } a.end_at = true ∧
      ((none : Option Nat) = none ∨ ∃ i, (none : Option Nat) = some i ∧ a.id ≠ i) :=
  conflict_detector_characterization demoState.appts 1 { day := 0, tod := 36900 }
    { day := 0, tod := 38700 } none

/-- Witness for C3: Tuesday has no window for master 1, so a Tuesday range
is rejected with `OutsideWorkingHours`. -/
theorem availability_validator_characterization_witness :
    assert_within_working_hours demoState.hours 1 { day := 1, tod := 36000 }
        { day := 1, tod := 37800 } =
      Except.error BookingError.outsideWorkingHours :=
  (availability_validator_characterization demoState.hours 1
    { day := 1, tod := 36000 } { day := 1, tod := 37800 }).1 (by decide)

/-- Witness for the amended C5: the midnight-crossing range Monday 23:00 to
Tuesday 01:00 is accepted under the window 00:00-23:59. -/
theorem midnight_crossing_characterization_witness :
    (0 : Nat) < 1 ∧
    assert_within_working_hours
      [{ master_id := 1, day_of_week := 0, start_time := 0, end_time := 86340 }] 1
      { day := 0, tod := 82800 } { day := 1, tod := 3600 } = Except.ok () :=
  ⟨by decide, by
    have h := midnight_crossing_characterization
      [{ master_id := 1, day_of_week := 0, start_time := 0, end_time := 86340 }] 1
      { day := 0, tod := 82800 } { day := 1, tod := 3600 } (by decide)
    exact h.2.mpr (by decide)⟩

/-- Witness for C6: an inverted range is rejected as `InvalidRange` with
the state untouched, even though the range also lies inside no window. -/
theorem create_invalid_range_guard_witness :
    dtLe { day := 0, tod := 36000 } { day := 0, tod := 43200 } = true ∧
    create_appointment demoState
      { master_id := 1, customer_telegram_id := 102,
        start_at := { day := 0, tod := 43200 }, end_at := { day := 0, tod := 36000 } }
      { day := 0, tod := 0 } = (demoState, Except.error BookingError.invalidRange) :=
  ⟨by decide, create_invalid_range_guard demoState
    { master_id := 1, customer_telegram_id := 102,
      start_at := { day := 0, tod := 43200 }, end_at := { day := 0, tod := 36000 } }
    { day := 0, tod := 0 } (by decide)⟩

/-- Witness for C7: cancelling the demonstration appointment succeeds once
and the second cancel reports `AppointmentNotFound`. -/
theorem not_found_semantics_witness :
    cancel_appointment demoState 1 { day := 0, tod := 1000 } =
      (demoCancelledState, Except.ok demoCancelledAppt) ∧
    (cancel_appointment demoCancelledState 1 { day := 0, tod := 2000 }).2 =
      Except.error BookingError.appointmentNotFound :=
  ⟨by decide,
   not_found_semantics.2.1 demoState 1 { day := 0, tod := 1000 }
     demoCancelledState demoCancelledAppt { day := 0, tod := 2000 } (by decide)⟩

/-- Witness for C8: shifting the demonstration appointment to 10:15-10:45,
a range overlapping only its own current slot, succeeds. -/
theorem reschedule_self_exclusion_witness :
    sessionGet demoState.appts 1 = some demoAppt ∧
    demoAppt.status = AppointmentStatus.booked ∧
    assert_within_working_hours demoState.hours demoAppt.master_id
      { day := 0, tod := 36900 } { day := 0, tod := 38700 } = Except.ok () ∧
    (reschedule_appointment demoState 1 { day := 0, tod := 36900 }
        { day := 0, tod := 38700 }).2 =
      Except.ok { demoAppt with
                  start_at := { day := 0, tod := 36900 }
                  end_at := { day := 0, tod := 38700 } } :=
  ⟨by decide, by decide, by decide,
   reschedule_self_exclusion demoState 1 { day := 0, tod := 36900 }
     { day := 0, tod := 38700 } demoAppt (by decide) (by decide) (by decide)
     (by decide)⟩

/-- Witness for C9: a create that fails with `MasterBusy` (the range
overlaps the stored appointment) leaves the state untouched. -/
theorem failed_op_leaves_state_unchanged_witness :
    (applyOp demoState (Op.createOp
      { master_id := 1, customer_telegram_id := 103,
        start_at := { day := 0, tod := 36900 }, end_at := { day := 0, tod := 37200 } }
      { day := 0, tod := 0 })).2 = Except.error BookingError.masterBusy ∧
    (applyOp demoState (Op.createOp
      { master_id := 1, customer_telegram_id := 103,
        start_at := { day := 0, tod := 36900 }, end_at := { day := 0, tod := 37200 } }
      { day := 0, tod := 0 })).1 = demoState :=
  ⟨by decide, failed_op_leaves_state_unchanged demoState
    (Op.createOp
      { master_id := 1, customer_telegram_id := 103,
        start_at := { day := 0, tod := 36900 }, end_at := { day := 0, tod := 37200 } }
      { day := 0, tod := 0 }) BookingError.masterBusy (by decide)⟩

/-- Witness for C10 at the concrete successful cancel. -/
theorem operations_frame_conditions_witness :
    UniqueIds demoState.appts ∧
    (demoCancelledState.hours = demoState.hours ∧
     demoCancelledState.nextId = demoState.nextId ∧
     List.Forall₂ (cancelFrame 1 { day := 0, tod := 1000 })
       demoState.appts demoCancelledState.appts) :=
  ⟨by decide,
   (operations_frame_conditions demoState 1).1 { day := 0, tod := 1000 }
     demoCancelledState demoCancelledAppt (by decide) (by decide)⟩

end Barbershop
